import Mathlib

/-!
Verification development for the `linkie-claw` scheduler service.

The development shallowly embeds the core of the repository:

* `src/scheduler/app/jobs.py` — the publish trigger (`trigger_linkedin_publish`)
  together with its retry tracker (`_retry_counts`, `get_retry_count`,
  `clear_retry_count`, `_schedule_retry`, `_mark_post_failed`);
* `src/scheduler/app/catchup.py` — the catch-up reconciler
  (`recover_missed_posts`);
* `src/scheduler.archived/app/routes/schedule.py` — the schedule API
  operations (`create_schedule`, `cancel_schedule`, `reschedule_post`).

External collaborators (the APScheduler job store, the `httpx` HTTP client,
the system-of-record API, CPython's `datetime`/`str` primitives) are modelled
explicitly: the job store is an association list with unique keys, HTTP call
outcomes are inputs of the model (an attempt either returns 2xx or raises
`httpx.HTTPError`), JSON response bodies are an inductive `Json` type with
Python truthiness/iteration semantics, and `datetime.fromisoformat`
(pre-3.11 semantics, as assumed by the source's explicit `Z` replacement) is
implemented for the grammar it accepts across the Python versions the source
can run: `YYYY-MM-DD[<sep>HH[:MM[:SS[.fff[fff]]]][±HH:MM[:SS]]]` — that is,
including fractional seconds of exactly 3 or 6 digits and whole-second UTC
offsets.
-/

namespace LinkieClaw

/-! ### JSON values, with Python object semantics -/

/-- A JSON value as decoded by `response.json()` in Python.  Numbers are
modelled as integers (the ids and payload fields the scheduler reads are
never fractional).  Objects are association lists with unique keys. -/
inductive Json where
  | null
  | jbool (b : Bool)
  | jnum (n : Int)
  | jstr (s : String)
  | jlist (xs : List Json)
  | jobj (kvs : List (String × Json))

/-- Python truthiness of a decoded JSON value (`bool(x)`). -/
def Json.truthy : Json → Bool
  | .null => false
  | .jbool b => b
  | .jnum n => n != 0
  | .jstr s => s != ""
  | .jlist xs => !xs.isEmpty
  | .jobj kvs => !kvs.isEmpty

/-- Python `repr()` of a decoded JSON value (string escaping inside reprs is
not reproduced; no claim depends on it). -/
def Json.pyRepr : Json → String
  | .null => "None"
  | .jbool b => cond b "True" "False"
  | .jnum n => toString n
  | .jstr s => "'" ++ s ++ "'"
  | .jlist xs =>
      "[" ++ String.intercalate ", " (xs.attach.map (fun x => Json.pyRepr x.1)) ++ "]"
  | .jobj kvs =>
      "\x7b" ++ String.intercalate ", "
        (kvs.attach.map (fun kv => "'" ++ kv.1.1 ++ "': " ++ Json.pyRepr kv.1.2)) ++ "\x7d"
decreasing_by
  · have := List.sizeOf_lt_of_mem x.2
    simp only [Json.jlist.sizeOf_spec]
    omega
  · obtain ⟨⟨a, b⟩, hmem⟩ := kv
    have h1 := List.sizeOf_lt_of_mem hmem
    simp only [Prod.mk.sizeOf_spec] at h1
    simp only [Json.jobj.sizeOf_spec]
    omega

/-- Python `str()` of a decoded JSON value, as used by f-string interpolation
(`f"post-\x7bpost_id\x7d"`). -/
def Json.pyStr : Json → String
  | .jstr s => s
  | j => j.pyRepr

/-- Dictionary lookup `d.get(key)` on a decoded JSON object's entries. -/
def lookupKey : List (String × Json) → String → Option Json
  | [], _ => none
  | (k, v) :: rest, key => if k == key then some v else lookupKey rest key

/-- Truthiness of a `d.get(key)` result (Python `None` for a missing key is
falsy). -/
def optTruthy : Option Json → Bool
  | none => false
  | some v => v.truthy

/-- Exceptions that the reconciler body can raise and does not catch. -/
inductive PyErr where
  | typeError
  | attributeError

/-- Python iteration (`for x in v`) over a decoded JSON value: lists yield
their elements, strings their characters, dicts their keys; other values
raise `TypeError`. -/
def pyIterate : Json → Except PyErr (List Json)
  | .jlist xs => .ok xs
  | .jstr s => .ok (s.data.map (fun c => Json.jstr (String.mk [c])))
  | .jobj kvs => .ok (kvs.map (fun kv => Json.jstr kv.1))
  | _ => .error .typeError

/-! ### Python datetimes and `fromisoformat`

`catchup.py` parses `scheduledAt` with
`datetime.fromisoformat(raw.replace("Z", "+00:00"))`, makes the result
timezone-aware (`replace(tzinfo=timezone.utc)` when naive) and compares it
with `datetime.now(timezone.utc)`.  A datetime is modelled by its wall-clock
reading in seconds (CPython's proleptic-Gregorian ordinal times 86400, plus
the seconds within the day) and an optional UTC offset in seconds. -/

/-- A CPython `datetime`: wall-clock seconds, the microsecond component
(`0 ≤ micro < 10^6`), and an optional UTC offset in whole seconds (`none`
models a naive datetime). -/
structure PyDatetime where
  wall : Int
  micro : Nat
  tzOffset : Option Int

/-- Absolute (UTC) whole seconds of an aware datetime.  `now` is modelled on
the whole-second grid, so Python's full-precision comparison
`scheduled_at >= now` — that is, `absSeconds*10^6 + micro ≥ now*10^6` — is
exactly `absSeconds ≥ now`, because `0 ≤ micro < 10^6` and offsets are whole
seconds; the microsecond component can therefore never flip the comparison
the reconciler performs. -/
def PyDatetime.absSeconds (d : PyDatetime) : Int :=
  d.wall - (d.tzOffset.getD 0)

/-- Gregorian leap-year test, as in CPython `datetime.py`. -/
def isLeapYear (y : Nat) : Bool :=
  (y % 4 == 0 && y % 100 != 0) || y % 400 == 0

/-- Days in a month, as in CPython `datetime.py`. -/
def daysInMonth (y m : Nat) : Nat :=
  if m = 2 then (if isLeapYear y then 29 else 28)
  else if m = 4 ∨ m = 6 ∨ m = 9 ∨ m = 11 then 30
  else 31

/-- Days in the months strictly before month `m` of year `y`. -/
def daysBeforeMonth (y m : Nat) : Nat :=
  (List.range (m - 1)).foldl (fun acc i => acc + daysInMonth y (i + 1)) 0

/-- Proleptic-Gregorian ordinal of a date (CPython `_ymd2ord`; day 1 is
0001-01-01).  The leap-day correction `-(y-1)/100` is applied last so the
natural-number subtraction never truncates. -/
def ymdToOrdinal (y m d : Nat) : Nat :=
  (y - 1) * 365 + (y - 1) / 4 + (y - 1) / 400 + daysBeforeMonth y m + d - (y - 1) / 100

/-- Wall-clock seconds of a date-time sextuple. -/
def ymdhmsToSeconds (y mo d h mi s : Nat) : Nat :=
  ymdToOrdinal y mo d * 86400 + h * 3600 + mi * 60 + s

/-- One decimal digit. -/
def charDigit (c : Char) : Option Nat :=
  if c.isDigit then some (c.toNat - 48) else none

/-- Two decimal digits. -/
def read2 : List Char → Option (Nat × List Char)
  | c1 :: c2 :: rest => do
      let d1 ← charDigit c1
      let d2 ← charDigit c2
      pure (d1 * 10 + d2, rest)
  | _ => none

/-- Four decimal digits. -/
def read4 : List Char → Option (Nat × List Char)
  | c1 :: c2 :: c3 :: c4 :: rest => do
      let d1 ← charDigit c1
      let d2 ← charDigit c2
      let d3 ← charDigit c3
      let d4 ← charDigit c4
      pure (((d1 * 10 + d2) * 10 + d3) * 10 + d4, rest)
  | _ => none

/-- Consume an expected single character. -/
def expect (c : Char) : List Char → Option (List Char)
  | c2 :: rest => if c2 = c then some rest else none
  | [] => none

/-- Split the time string at the first `+` or `-`: CPython locates the
timezone sign inside the time string before parsing the components, so the
fractional-second digits run up to the sign (or the end). -/
def spanUntilSign : List Char → List Char × List Char
  | [] => ([], [])
  | c :: cs =>
      if c = '+' ∨ c = '-' then ([], c :: cs)
      else
        let (a, b) := spanUntilSign cs
        (c :: a, b)

/-- Numeric value of a digit string (`int(...)` on the fractional part);
`none` when a non-digit occurs. -/
def digitsVal : Nat → List Char → Option Nat
  | acc, [] => some acc
  | acc, c :: cs => do
      let d ← charDigit c
      digitsVal (acc * 10 + d) cs

/-- CPython `_parse_hh_mm_ss_ff` on the time part `HH[:MM[:SS[.fff[fff]]]]`:
hour, minute, second, microsecond, and the unconsumed timezone suffix.  The
fraction requires a full `HH:MM:SS` prefix and exactly 3 or 6 digits; a
3-digit fraction is milliseconds (scaled by 1000). -/
def parseHMSF (cs : List Char) : Option (Nat × Nat × Nat × Nat × List Char) := do
  let (h, r1) ← read2 cs
  match r1 with
  | ':' :: r2 => do
      let (mi, r3) ← read2 r2
      match r3 with
      | ':' :: r4 => do
          let (sec, r5) ← read2 r4
          match r5 with
          | '.' :: r6 =>
              let (frac, r7) := spanUntilSign r6
              if frac.length = 3 then do
                let v ← digitsVal 0 frac
                pure (h, mi, sec, v * 1000, r7)
              else if frac.length = 6 then do
                let v ← digitsVal 0 frac
                pure (h, mi, sec, v, r7)
              else none
          | _ => pure (h, mi, sec, 0, r5)
      | _ => pure (h, mi, 0, 0, r3)
  | _ => pure (h, 0, 0, 0, r1)

/-- Optional trailing UTC offset `±HH:MM[:SS]`; `none` in the result means a
naive datetime.  The offset magnitude must be under 24 hours (the CPython
`timezone` constraint).  The degenerate `±HH:MM:SS.ffffff` offset form with
fractional seconds is not modelled: offsets are whole seconds (no real
timezone has a sub-second offset, and `isoformat()` never emits one). -/
def parseTz : List Char → Option (Option Int)
  | [] => some none
  | sign :: rest =>
      if sign = '+' ∨ sign = '-' then do
        let (th, r1) ← read2 rest
        let r2 ← expect ':' r1
        let (tm, r3) ← read2 r2
        let (ts, r4) ←
          match r3 with
          | ':' :: r5 => do
              let (ts, r6) ← read2 r5
              pure (ts, r6)
          | _ => pure (0, r3)
        if r4 = [] then
          let off : Int := (th * 3600 + tm * 60 + ts : Nat)
          if off < 86400 then
            some (some (if sign = '+' then off else -off))
          else none
        else none
      else none

/-- CPython (pre-3.11) `datetime.fromisoformat`:
`YYYY-MM-DD`, optionally followed by any single separator character plus
`HH[:MM[:SS[.fff[fff]]]]` and an optional `±HH:MM[:SS]` offset.  Returns
`none` where Python raises `ValueError`. -/
def pyFromIsoformatChars (cs : List Char) : Option PyDatetime := do
  let (y, cs1) ← read4 cs
  let cs2 ← expect '-' cs1
  let (mo, cs3) ← read2 cs2
  let cs4 ← expect '-' cs3
  let (d, cs5) ← read2 cs4
  if y < 1 ∨ mo < 1 ∨ 12 < mo ∨ d < 1 ∨ daysInMonth y mo < d then none
  else
    match cs5 with
    | [] => some ⟨(ymdhmsToSeconds y mo d 0 0 0 : Nat), 0, none⟩
    | _sep :: rest => do
        let (h, mi, sec, micro, rest1) ← parseHMSF rest
        if 23 < h ∨ 59 < mi ∨ 59 < sec then none
        else do
          let tz ← parseTz rest1
          some ⟨(ymdhmsToSeconds y mo d h mi sec : Nat), micro, tz⟩

/-- Python `raw.replace("Z", "+00:00")`: every `Z` character is replaced by
the six characters `+00:00`. -/
def pyReplaceZ : List Char → List Char
  | [] => []
  | c :: cs =>
      if c = 'Z' then '+' :: '0' :: '0' :: ':' :: '0' :: '0' :: pyReplaceZ cs
      else c :: pyReplaceZ cs

/-- The exact timestamp-parsing pipeline of `recover_missed_posts`:
`datetime.fromisoformat(scheduled_at_raw.replace("Z", "+00:00"))`. -/
def parseScheduledAt (s : String) : Option PyDatetime :=
  pyFromIsoformatChars (pyReplaceZ s.data)

/-- The `if scheduled_at.tzinfo is None: scheduled_at =
scheduled_at.replace(tzinfo=timezone.utc)` step: a naive datetime keeps its
wall-clock reading and is stamped UTC. -/
def ensureAware (dt : PyDatetime) : PyDatetime :=
  match dt.tzOffset with
  | none => { dt with tzOffset := some 0 }
  | some _ => dt

/-! ### The APScheduler job store

The store is keyed by job id; `sched.get_job`, `sched.remove_job` and
`sched.add_job` (with its `replace_existing` flag) are modelled on an
association list whose keys are unique (the store is a map). -/

/-- A stored one-shot (`trigger="date"`) job: its `run_date` in absolute
seconds and its single argument `args=[post_id]`. -/
structure JobInfo where
  runDate : Int
  payload : Json

/-- The job store contents: job id to job. -/
abbrev JobStore := List (String × JobInfo)

/-- The `sched.get_job(job_id)` lookup. -/
def getJob : JobStore → String → Option JobInfo
  | [], _ => none
  | (k, info) :: rest, id => if k == id then some info else getJob rest id

/-- The `sched.remove_job(job_id)` removal (callers only invoke it after a
successful `get_job`). -/
def removeJob (jobs : JobStore) (id : String) : JobStore :=
  jobs.filter (fun kv => kv.1 != id)

/-- The `sched.add_job(..., id=job_id, replace_existing=True)` upsert: an
existing job under the id is replaced. -/
def addJobReplace (jobs : JobStore) (id : String) (info : JobInfo) : JobStore :=
  (id, info) :: removeJob jobs id

/-- The `sched.add_job(..., id=job_id, replace_existing=False)` insert; every
call site has just established that the id is absent (otherwise APScheduler
would raise `ConflictingIdError`). -/
def addJobNew (jobs : JobStore) (id : String) (info : JobInfo) : JobStore :=
  (id, info) :: jobs

/-- Job-key derivation `f"post-\x7bpost_id\x7d"` shared by every operation. -/
def jobKey (post_id : String) : String :=
  "post-" ++ post_id

/-! ### Scheduler state and the retry tracker -/

/-- The mutable state of the scheduler process: the APScheduler job store and
the in-memory retry tracker `_retry_counts : dict[str, int]`. -/
structure SchedState where
  jobs : JobStore
  retryCounts : List (String × Nat)

/-- Dictionary lookup on the retry tracker. -/
def lookupCount : List (String × Nat) → String → Option Nat
  | [], _ => none
  | (k, n) :: rest, p => if k == p then some n else lookupCount rest p

/-- `get_retry_count`: current retry count for a post, defaulting to 0. -/
def get_retry_count (st : SchedState) (post_id : String) : Nat :=
  (lookupCount st.retryCounts post_id).getD 0

/-- `clear_retry_count`: `_retry_counts.pop(post_id, None)`. -/
def clear_retry_count (st : SchedState) (post_id : String) : SchedState :=
  { st with retryCounts := st.retryCounts.filter (fun kv => kv.1 != post_id) }

/-- The dict assignment `_retry_counts[post_id] = n`. -/
def set_retry_count (st : SchedState) (post_id : String) (n : Nat) : SchedState :=
  { st with retryCounts := (post_id, n) :: st.retryCounts.filter (fun kv => kv.1 != post_id) }

/-! ### The publish trigger (`trigger_linkedin_publish`) -/

/-- Retry bound from `jobs.py`. -/
def MAX_RETRIES : Nat := 3

/-- Fixed retry delay from `jobs.py` (seconds). -/
def RETRY_DELAY_SECONDS : Int := 120

/-- Outcome of one HTTP call as observed by the code: either a 2xx response,
or an `httpx.HTTPError` (transport error, timeout, or the non-2xx raised by
`raise_for_status()`), carrying the exception's message. -/
inductive HttpOutcome where
  | ok
  | error (msg : String)

/-- The external world during one firing: the current time and the outcomes
the two HTTP calls inside the `try` block would have. -/
structure FireEnv where
  now : Int
  patchPublishing : HttpOutcome
  webhook : HttpOutcome

/-- A `PATCH /posts/\x7bid\x7d` request issued against the system of record
during a firing. -/
inductive SorPatch where
  | publishing
  | failed (errorMessage : String)

/-- Observable result of one firing: the new scheduler state, whether the
downstream n8n webhook was actually invoked, and the status PATCHes that
were attempted against the system of record, in order. -/
structure FireResult where
  state : SchedState
  webhookCalled : Bool
  sorPatches : List SorPatch

/-- `_schedule_retry`: remove the (already consumed) job if still present,
then re-add the job under the same key with `run_date = now +
RETRY_DELAY_SECONDS` and `replace_existing=True`. -/
def schedule_retry (st : SchedState) (post_id : String) (now : Int) : SchedState :=
  let job_id := jobKey post_id
  let jobs :=
    match getJob st.jobs job_id with
    | some _ => removeJob st.jobs job_id
    | none => st.jobs
  { st with jobs := addJobReplace jobs job_id ⟨now + RETRY_DELAY_SECONDS, Json.jstr post_id⟩ }

/-- `trigger_linkedin_publish(post_id)`: mark the post "publishing"
(`raise_for_status` included), POST to the n8n webhook
(`raise_for_status` included), clear the retry count on success; on an
`httpx.HTTPError` raised anywhere in the `try` block, either schedule a
retry (when the pre-read count is below `MAX_RETRIES`) or clear the count
and PATCH the post "failed". -/
def trigger_linkedin_publish (env : FireEnv) (post_id : String) (st : SchedState) :
    FireResult :=
  let retry_count := get_retry_count st post_id
  let onFail : String → Bool → FireResult := fun e webhookCalled =>
    if retry_count < MAX_RETRIES then
      let st1 := set_retry_count st post_id (retry_count + 1)
      ⟨schedule_retry st1 post_id env.now, webhookCalled, [.publishing]⟩
    else
      ⟨clear_retry_count st post_id, webhookCalled,
        [.publishing,
         .failed ("Failed after " ++ toString (MAX_RETRIES + 1) ++
           " attempts. Last error: " ++ e)]⟩
  match env.patchPublishing with
  | .error e => onFail e false
  | .ok =>
      match env.webhook with
      | .error e => onFail e true
      | .ok => ⟨clear_retry_count st post_id, true, [.publishing]⟩

/-- The failure condition of one firing: the first `httpx.HTTPError` raised
inside the `try` block of `trigger_linkedin_publish`, if any. -/
def fireFailure (env : FireEnv) : Option String :=
  match env.patchPublishing with
  | .error e => some e
  | .ok =>
      match env.webhook with
      | .error e => some e
      | .ok => none

/-! ### The catch-up reconciler (`recover_missed_posts`) -/

/-- Catch-up settle delay from `catchup.py` (seconds). -/
def CATCHUP_DELAY_SECONDS : Int := 30

/-- Result of the `GET /posts?status=scheduled` fetch (including
`raise_for_status()` and `response.json()`): a decoded body, or an
`httpx.HTTPError`. -/
inductive FetchResult where
  | ok (body : Json)
  | httpError (msg : String)

/-- The external world during one reconciliation pass. -/
structure ReconcileEnv where
  now : Int
  fetch : FetchResult

/-- The response-shape normalisation
`if not isinstance(posts, list): posts = posts.get("posts", []) if
isinstance(posts, dict) else []`. -/
def normalizePosts : Json → Json
  | .jlist xs => .jlist xs
  | .jobj kvs => (lookupKey kvs "posts").getD (.jlist [])
  | _ => .jlist []

/-- What the loop body of `recover_missed_posts` decides for one candidate,
before consulting the job store.  The decision is a pure function of the
candidate and `now`: raise (`post.get` on a non-dict), skip silently
(missing/falsy id or timestamp, non-string timestamp, or a timestamp not in
the past), skip with a `logger.warning` (unparsable timestamp string), or
treat the candidate as past due. -/
inductive CandDecision where
  | raise (e : PyErr)
  | skip
  | warn (pid raw : Json)
  | due (pid : Json)

/-- The candidate analysis of the loop body, in source order: read
`post.get("id")` and `post.get("scheduledAt") or post.get("scheduled_at")`;
skip falsy ids/timestamps; parse string timestamps (warning on failure) and
skip non-strings; make the result timezone-aware; skip timestamps that are
not in the past (`scheduled_at >= now`). -/
def candDecision (now : Int) (p : Json) : CandDecision :=
  match p with
  | .jobj kvs =>
      let post_id := lookupKey kvs "id"
      let sa1 := lookupKey kvs "scheduledAt"
      let scheduled_at_raw :=
        match sa1 with
        | some v => if v.truthy then some v else lookupKey kvs "scheduled_at"
        | none => lookupKey kvs "scheduled_at"
      if !optTruthy post_id || !optTruthy scheduled_at_raw then .skip
      else
        match scheduled_at_raw with
        | some (.jstr s) =>
            match parseScheduledAt s with
            | none => .warn (post_id.getD .null) (.jstr s)
            | some dt =>
                if now ≤ (ensureAware dt).absSeconds then .skip
                else .due (post_id.getD .null)
        | _ => .skip
  | _ => .raise .attributeError

/-- Accumulator of the reconciliation loop: the job store being mutated, the
`recovered` counter, and the warnings logged so far (id and raw timestamp,
as in `logger.warning("Could not parse scheduled_at for post %s: %s", ...)`). -/
structure RecoverAcc where
  jobs : JobStore
  recovered : Nat
  warnings : List (Json × Json)

/-- One iteration of the loop body: act on the candidate's decision, skipping
candidates whose derived key already has a live job and otherwise enqueuing
a job with `run_date = now + CATCHUP_DELAY_SECONDS` and
`replace_existing=True`. -/
def processPost (now : Int) (acc : RecoverAcc) (p : Json) : Except PyErr RecoverAcc :=
  match candDecision now p with
  | .raise e => .error e
  | .skip => .ok acc
  | .warn pid raw => .ok { acc with warnings := acc.warnings ++ [(pid, raw)] }
  | .due pid =>
      let job_id := "post-" ++ pid.pyStr
      match getJob acc.jobs job_id with
      | some _ => .ok acc
      | none =>
          .ok { jobs := addJobReplace acc.jobs job_id ⟨now + CATCHUP_DELAY_SECONDS, pid⟩,
                recovered := acc.recovered + 1,
                warnings := acc.warnings }

/-- The candidate loop.  An uncaught exception aborts the loop but keeps the
job-store mutations already performed. -/
def recoverLoop (now : Int) : List Json → RecoverAcc → RecoverAcc × Option PyErr
  | [], acc => (acc, none)
  | p :: ps, acc =>
      match processPost now acc p with
      | .error e => (acc, some e)
      | .ok acc1 => recoverLoop now ps acc1

/-- Observable outcome of `recover_missed_posts()`: the returned count (or
the uncaught exception), the scheduler state afterwards, and the warnings
logged. -/
structure ReconcileOutput where
  result : Except PyErr Nat
  state : SchedState
  warnings : List (Json × Json)

/-- `recover_missed_posts()`: fetch the scheduled posts (returning 0 on any
`httpx.HTTPError`), normalise the response shape, iterate the candidates
(`TypeError` for a non-iterable source), and process each candidate as in
`processPost`. -/
def recover_missed_posts (env : ReconcileEnv) (st : SchedState) : ReconcileOutput :=
  match env.fetch with
  | .httpError _ => ⟨.ok 0, st, []⟩
  | .ok body =>
      match pyIterate (normalizePosts body) with
      | .error e => ⟨.error e, st, []⟩
      | .ok posts =>
          match recoverLoop env.now posts ⟨st.jobs, 0, []⟩ with
          | (acc, none) => ⟨.ok acc.recovered, { st with jobs := acc.jobs }, acc.warnings⟩
          | (acc, some e) => ⟨.error e, { st with jobs := acc.jobs }, acc.warnings⟩

/-! ### The archived schedule API (`routes/schedule.py`) -/

/-- Outcome of one schedule-API operation: a 2xx response carrying the job id
and status string, a 409 conflict, or a 404 not-found. -/
inductive ApiOutcome where
  | ok (job_id : String) (status : String)
  | conflict
  | notFound

/-- `create_schedule`: 409 when a job with the key exists, otherwise
`add_job(..., replace_existing=False)`. -/
def create_schedule (st : SchedState) (post_id : String) (scheduled_at : Int) :
    ApiOutcome × SchedState :=
  let job_id := jobKey post_id
  match getJob st.jobs job_id with
  | some _ => (.conflict, st)
  | none =>
      (.ok job_id "scheduled",
       { st with jobs := addJobNew st.jobs job_id ⟨scheduled_at, Json.jstr post_id⟩ })

/-- `cancel_schedule`: 404 when no job with the key exists, otherwise
`remove_job`. -/
def cancel_schedule (st : SchedState) (post_id : String) : ApiOutcome × SchedState :=
  let job_id := jobKey post_id
  match getJob st.jobs job_id with
  | none => (.notFound, st)
  | some _ =>
      (.ok job_id "cancelled", { st with jobs := removeJob st.jobs job_id })

/-- `reschedule_post` (upsert): remove the existing job if present, then
`add_job(..., replace_existing=False)`. -/
def reschedule_post (st : SchedState) (post_id : String) (scheduled_at : Int) :
    ApiOutcome × SchedState :=
  let job_id := jobKey post_id
  let jobs :=
    match getJob st.jobs job_id with
    | some _ => removeJob st.jobs job_id
    | none => st.jobs
  (.ok job_id "rescheduled",
   { st with jobs := addJobNew jobs job_id ⟨scheduled_at, Json.jstr post_id⟩ })

/-! ### Operation sequences over the shared scheduler state -/

/-- One operation against the job store / retry tracker: a schedule-API call,
a dispatcher firing (the date trigger is consumed, then
`trigger_linkedin_publish` runs with some external outcome), or a
reconciliation pass. -/
inductive Op where
  | create (post_id : String) (scheduled_at : Int)
  | cancel (post_id : String)
  | reschedule (post_id : String) (scheduled_at : Int)
  | fire (post_id : String) (env : FireEnv)
  | reconcile (env : ReconcileEnv)

/-- State transition of one operation. -/
def applyOp (st : SchedState) : Op → SchedState
  | .create p t => (create_schedule st p t).2
  | .cancel p => (cancel_schedule st p).2
  | .reschedule p t => (reschedule_post st p t).2
  | .fire p env =>
      (trigger_linkedin_publish env p { st with jobs := removeJob st.jobs (jobKey p) }).state
  | .reconcile env => (recover_missed_posts env st).state

/-- State after a sequence of operations. -/
def applyOps (st : SchedState) (ops : List Op) : SchedState :=
  ops.foldl applyOp st

/-- The Job Store invariant: at most one live job per key. -/
def JobKeysNodup (jobs : JobStore) : Prop :=
  (jobs.map Prod.fst).Nodup

/-- The implicit Retry Tracker invariant: every stored count lies in
`1 .. MAX_RETRIES`. -/
def RetryInv (st : SchedState) : Prop :=
  ∀ p n, lookupCount st.retryCounts p = some n → 1 ≤ n ∧ n ≤ MAX_RETRIES

/-! ### Job-store lemmas -/

theorem getJob_eq_none_iff (jobs : JobStore) (k : String) :
    getJob jobs k = none ↔ k ∉ jobs.map Prod.fst := by
  induction jobs with
  | nil => simp [getJob]
  | cons kv rest ih =>
      obtain ⟨k1, info⟩ := kv
      by_cases h : k1 = k
      · subst h; simp [getJob]
      · simp [getJob, h, ih, Ne.symm h]

theorem getJob_removeJob_self (jobs : JobStore) (k : String) :
    getJob (removeJob jobs k) k = none := by
  induction jobs with
  | nil => rfl
  | cons kv rest ih =>
      obtain ⟨k1, info⟩ := kv
      by_cases h : k1 = k
      · simpa [removeJob, List.filter_cons, h] using ih
      · simpa [removeJob, List.filter_cons, h, getJob] using ih

theorem getJob_removeJob_ne (jobs : JobStore) {k k' : String} (h : k' ≠ k) :
    getJob (removeJob jobs k) k' = getJob jobs k' := by
  induction jobs with
  | nil => rfl
  | cons kv rest ih =>
      obtain ⟨k1, info⟩ := kv
      by_cases h1 : k1 = k
      · subst h1
        simpa [removeJob, List.filter_cons, getJob, Ne.symm h] using ih
      · by_cases h2 : k1 = k'
        · subst h2; simp [removeJob, List.filter_cons, h1, getJob]
        · simpa [removeJob, List.filter_cons, h1, getJob, h2] using ih

theorem getJob_addJobReplace_self (jobs : JobStore) (k : String) (info : JobInfo) :
    getJob (addJobReplace jobs k info) k = some info := by
  simp [addJobReplace, getJob]

theorem getJob_addJobReplace_ne (jobs : JobStore) (info : JobInfo) {k k' : String}
    (h : k' ≠ k) :
    getJob (addJobReplace jobs k info) k' = getJob jobs k' := by
  simp [addJobReplace, getJob, Ne.symm h, getJob_removeJob_ne jobs h]

theorem jobKeysNodup_removeJob {jobs : JobStore} (k : String) (h : JobKeysNodup jobs) :
    JobKeysNodup (removeJob jobs k) :=
  h.sublist (List.Sublist.map Prod.fst (List.filter_sublist jobs))

theorem jobKeysNodup_addJobReplace {jobs : JobStore} (k : String) (info : JobInfo)
    (h : JobKeysNodup jobs) : JobKeysNodup (addJobReplace jobs k info) := by
  have hsub : JobKeysNodup (removeJob jobs k) := jobKeysNodup_removeJob k h
  have hnotin : k ∉ (removeJob jobs k).map Prod.fst := by
    rw [← getJob_eq_none_iff]
    exact getJob_removeJob_self jobs k
  rw [JobKeysNodup, addJobReplace, List.map_cons, List.nodup_cons]
  exact ⟨hnotin, hsub⟩

theorem jobKeysNodup_addJobNew {jobs : JobStore} (k : String) (info : JobInfo)
    (h : JobKeysNodup jobs) (habs : getJob jobs k = none) :
    JobKeysNodup (addJobNew jobs k info) := by
  have hnotin : k ∉ jobs.map Prod.fst := (getJob_eq_none_iff jobs k).mp habs
  rw [JobKeysNodup, addJobNew, List.map_cons, List.nodup_cons]
  exact ⟨hnotin, h⟩

/-! ### Retry-tracker lemmas -/

theorem lookupCount_filter_ne (l : List (String × Nat)) {p q : String} (h : q ≠ p) :
    lookupCount (l.filter (fun kv => kv.1 != p)) q = lookupCount l q := by
  induction l with
  | nil => rfl
  | cons kv rest ih =>
      obtain ⟨k1, n⟩ := kv
      by_cases h1 : k1 = p
      · subst h1
        simpa [List.filter_cons, lookupCount, Ne.symm h] using ih
      · by_cases h2 : k1 = q
        · subst h2; simp [List.filter_cons, h1, lookupCount]
        · simpa [List.filter_cons, h1, lookupCount, h2] using ih

theorem lookupCount_filter_self (l : List (String × Nat)) (p : String) :
    lookupCount (l.filter (fun kv => kv.1 != p)) p = none := by
  induction l with
  | nil => rfl
  | cons kv rest ih =>
      obtain ⟨k1, n⟩ := kv
      by_cases h1 : k1 = p
      · simpa [List.filter_cons, h1] using ih
      · simpa [List.filter_cons, h1, lookupCount] using ih

/-! ### Branch analysis of one firing -/

theorem trigger_state_cases (env : FireEnv) (post_id : String) (st : SchedState) :
    (trigger_linkedin_publish env post_id st).state = clear_retry_count st post_id ∨
    (get_retry_count st post_id < MAX_RETRIES ∧
      (trigger_linkedin_publish env post_id st).state =
        schedule_retry (set_retry_count st post_id (get_retry_count st post_id + 1))
          post_id env.now) := by
  obtain ⟨now, pp, wh⟩ := env
  cases pp with
  | error e =>
      by_cases hlt : get_retry_count st post_id < MAX_RETRIES
      · exact Or.inr ⟨hlt, by simp [trigger_linkedin_publish, hlt]⟩
      · exact Or.inl (by simp [trigger_linkedin_publish, hlt])
  | ok =>
      cases wh with
      | error e =>
          by_cases hlt : get_retry_count st post_id < MAX_RETRIES
          · exact Or.inr ⟨hlt, by simp [trigger_linkedin_publish, hlt]⟩
          · exact Or.inl (by simp [trigger_linkedin_publish, hlt])
      | ok => exact Or.inl rfl

theorem trigger_jobs_nodup (env : FireEnv) (post_id : String) (st : SchedState)
    (h : JobKeysNodup st.jobs) :
    JobKeysNodup (trigger_linkedin_publish env post_id st).state.jobs := by
  rcases trigger_state_cases env post_id st with hcl | ⟨_, hs⟩
  · rw [hcl]; exact h
  · rw [hs]
    show JobKeysNodup (addJobReplace _ _ _)
    apply jobKeysNodup_addJobReplace
    show JobKeysNodup
      (match getJob st.jobs (jobKey post_id) with
       | some _ => removeJob st.jobs (jobKey post_id)
       | none => st.jobs)
    split
    · exact jobKeysNodup_removeJob _ h
    · exact h

theorem retryInv_clear (st : SchedState) (post_id : String) (h : RetryInv st) :
    RetryInv (clear_retry_count st post_id) := by
  intro q n hq
  simp only [clear_retry_count] at hq
  by_cases hqp : q = post_id
  · subst hqp; rw [lookupCount_filter_self] at hq; cases hq
  · rw [lookupCount_filter_ne _ hqp] at hq; exact h q n hq

theorem retryInv_trigger (env : FireEnv) (post_id : String) (st : SchedState)
    (h : RetryInv st) : RetryInv (trigger_linkedin_publish env post_id st).state := by
  rcases trigger_state_cases env post_id st with hcl | ⟨hlt, hs⟩
  · rw [hcl]; exact retryInv_clear st post_id h
  · rw [hs]
    intro q n hq
    show 1 ≤ n ∧ n ≤ MAX_RETRIES
    have hq' : lookupCount
        ((post_id, get_retry_count st post_id + 1) ::
          st.retryCounts.filter (fun kv => kv.1 != post_id)) q = some n := hq
    rw [lookupCount] at hq'
    by_cases hqp : post_id = q
    · rw [if_pos (beq_iff_eq.mpr hqp)] at hq'
      have hn : get_retry_count st post_id + 1 = n := by
        simpa using hq'
      have := hlt
      unfold MAX_RETRIES at *
      omega
    · rw [if_neg (by simpa using hqp)] at hq'
      rw [lookupCount_filter_ne _ (fun hc => hqp hc.symm)] at hq'
      exact h q n hq'

/-! ### State-shape lemmas for the reconciler -/

theorem processPost_jobs_nodup {now : Int} {acc : RecoverAcc} {p : Json} {acc1 : RecoverAcc}
    (hp : processPost now acc p = .ok acc1) (h : JobKeysNodup acc.jobs) :
    JobKeysNodup acc1.jobs := by
  unfold processPost at hp
  split at hp
  · cases hp
  · injection hp with he; subst he; exact h
  · injection hp with he; subst he; exact h
  · dsimp only at hp
    split at hp
    · injection hp with he; subst he; exact h
    · injection hp with he; subst he; exact jobKeysNodup_addJobReplace _ _ h

theorem recoverLoop_jobs_nodup (now : Int) (posts : List Json) :
    ∀ acc, JobKeysNodup acc.jobs → JobKeysNodup (recoverLoop now posts acc).1.jobs := by
  induction posts with
  | nil => intro acc h; exact h
  | cons p ps ih =>
      intro acc h
      unfold recoverLoop
      split
      · exact h
      · rename_i acc1 heq
        exact ih acc1 (processPost_jobs_nodup heq h)

theorem recover_jobs_nodup (env : ReconcileEnv) (st : SchedState)
    (h : JobKeysNodup st.jobs) :
    JobKeysNodup (recover_missed_posts env st).state.jobs := by
  unfold recover_missed_posts
  split
  · exact h
  · split
    · exact h
    · rename_i posts hIter
      split
      · rename_i acc heq
        have hres := recoverLoop_jobs_nodup env.now posts ⟨st.jobs, 0, []⟩ h
        rw [heq] at hres
        exact hres
      · rename_i acc e heq
        have hres := recoverLoop_jobs_nodup env.now posts ⟨st.jobs, 0, []⟩ h
        rw [heq] at hres
        exact hres

theorem recover_retryCounts (env : ReconcileEnv) (st : SchedState) :
    (recover_missed_posts env st).state.retryCounts = st.retryCounts := by
  unfold recover_missed_posts
  split
  · rfl
  · split
    · rfl
    · split <;> rfl

/-! ### Per-operation preservation -/

theorem create_schedule_retryCounts (st : SchedState) (p : String) (t : Int) :
    (create_schedule st p t).2.retryCounts = st.retryCounts := by
  simp only [create_schedule]
  split <;> rfl

theorem cancel_schedule_retryCounts (st : SchedState) (p : String) :
    (cancel_schedule st p).2.retryCounts = st.retryCounts := by
  simp only [cancel_schedule]
  split <;> rfl

theorem applyOp_jobs_nodup (st : SchedState) (op : Op) (h : JobKeysNodup st.jobs) :
    JobKeysNodup (applyOp st op).jobs := by
  cases op with
  | create p t =>
      show JobKeysNodup (create_schedule st p t).2.jobs
      simp only [create_schedule]
      split
      · exact h
      · rename_i habs
        exact jobKeysNodup_addJobNew _ _ h habs
  | cancel p =>
      show JobKeysNodup (cancel_schedule st p).2.jobs
      simp only [cancel_schedule]
      split
      · exact h
      · exact jobKeysNodup_removeJob _ h
  | reschedule p t =>
      show JobKeysNodup (reschedule_post st p t).2.jobs
      simp only [reschedule_post]
      apply jobKeysNodup_addJobNew
      · split
        · exact jobKeysNodup_removeJob _ h
        · exact h
      · split
        · exact getJob_removeJob_self _ _
        · rename_i habs; exact habs
  | fire p env =>
      exact trigger_jobs_nodup env p _ (jobKeysNodup_removeJob _ h)
  | reconcile env =>
      exact recover_jobs_nodup env st h

theorem applyOp_retryInv (st : SchedState) (op : Op) (h : RetryInv st) :
    RetryInv (applyOp st op) := by
  cases op with
  | create p t =>
      intro q n hq
      rw [show (applyOp st (.create p t)).retryCounts = st.retryCounts from
        create_schedule_retryCounts st p t] at hq
      exact h q n hq
  | cancel p =>
      intro q n hq
      rw [show (applyOp st (.cancel p)).retryCounts = st.retryCounts from
        cancel_schedule_retryCounts st p] at hq
      exact h q n hq
  | reschedule p t =>
      intro q n hq
      exact h q n hq
  | fire p env =>
      exact retryInv_trigger env p _ h
  | reconcile env =>
      intro q n hq
      rw [show (applyOp st (.reconcile env)).retryCounts = st.retryCounts from
        recover_retryCounts env st] at hq
      exact h q n hq

/-! ### Monotonicity and replay lemmas for the reconciler -/

theorem getJob_addJobReplace_isSome (jobs : JobStore) (key k : String) (info : JobInfo)
    (h : (getJob jobs k).isSome) : (getJob (addJobReplace jobs key info) k).isSome := by
  by_cases hk : k = key
  · subst hk; rw [getJob_addJobReplace_self]; rfl
  · rw [getJob_addJobReplace_ne _ _ hk]; exact h

theorem processPost_raise {now : Int} {p : Json} {e : PyErr}
    (hd : candDecision now p = .raise e) (acc : RecoverAcc) :
    processPost now acc p = .error e := by
  unfold processPost; rw [hd]

theorem processPost_skip {now : Int} {p : Json}
    (hd : candDecision now p = .skip) (acc : RecoverAcc) :
    processPost now acc p = .ok acc := by
  unfold processPost; rw [hd]

theorem processPost_warn {now : Int} {p : Json} {pid raw : Json}
    (hd : candDecision now p = .warn pid raw) (acc : RecoverAcc) :
    processPost now acc p = .ok { acc with warnings := acc.warnings ++ [(pid, raw)] } := by
  unfold processPost; rw [hd]

theorem processPost_due_present {now : Int} {p : Json} {pid : Json}
    (hd : candDecision now p = .due pid) (acc : RecoverAcc)
    (hjob : (getJob acc.jobs ("post-" ++ pid.pyStr)).isSome) :
    processPost now acc p = .ok acc := by
  unfold processPost; rw [hd]
  obtain ⟨j, hj⟩ := Option.isSome_iff_exists.mp hjob
  dsimp only
  rw [hj]

theorem processPost_due_absent {now : Int} {p : Json} {pid : Json}
    (hd : candDecision now p = .due pid) (acc : RecoverAcc)
    (hjob : getJob acc.jobs ("post-" ++ pid.pyStr) = none) :
    processPost now acc p =
      .ok ⟨addJobReplace acc.jobs ("post-" ++ pid.pyStr)
            ⟨now + CATCHUP_DELAY_SECONDS, pid⟩,
          acc.recovered + 1, acc.warnings⟩ := by
  unfold processPost; rw [hd]
  dsimp only
  rw [hjob]

theorem processPost_jobs_mono {now : Int} {acc : RecoverAcc} {p : Json} {acc1 : RecoverAcc}
    (hp : processPost now acc p = .ok acc1) (k : String)
    (h : (getJob acc.jobs k).isSome) : (getJob acc1.jobs k).isSome := by
  unfold processPost at hp
  split at hp
  · cases hp
  · injection hp with he; subst he; exact h
  · injection hp with he; subst he; exact h
  · dsimp only at hp
    split at hp
    · injection hp with he; subst he; exact h
    · injection hp with he; subst he; exact getJob_addJobReplace_isSome _ _ _ _ h

theorem recoverLoop_jobs_mono (now : Int) (posts : List Json) :
    ∀ (acc : RecoverAcc) (k : String), (getJob acc.jobs k).isSome →
      (getJob (recoverLoop now posts acc).1.jobs k).isSome := by
  induction posts with
  | nil => intro acc k h; exact h
  | cons p ps ih =>
      intro acc k h
      unfold recoverLoop
      split
      · exact h
      · rename_i acc1 heq
        exact ih acc1 k (processPost_jobs_mono heq k h)

theorem recoverLoop_replay (now : Int) (posts : List Json) :
    ∀ acc acc1, recoverLoop now posts acc = (acc1, none) →
      ∀ (r : Nat) (w : List (Json × Json)), ∃ w2,
        recoverLoop now posts ⟨acc1.jobs, r, w⟩ = (⟨acc1.jobs, r, w2⟩, none) := by
  induction posts with
  | nil =>
      intro acc acc1 hloop r w
      unfold recoverLoop at hloop
      injection hloop with h1 h2
      subst h1
      exact ⟨w, rfl⟩
  | cons p ps ih =>
      intro acc acc1 hloop r w
      simp only [recoverLoop] at hloop
      cases hd : candDecision now p with
      | raise e =>
          rw [processPost_raise hd acc] at hloop
          have : (acc, some e) = (acc1, (none : Option PyErr)) := hloop
          injection this with h1 h2
          cases h2
      | skip =>
          rw [processPost_skip hd acc] at hloop
          obtain ⟨w2, hw⟩ := ih acc acc1 hloop r w
          refine ⟨w2, ?_⟩
          simp only [recoverLoop]
          rw [processPost_skip hd ⟨acc1.jobs, r, w⟩]
          exact hw
      | warn pid raw =>
          rw [processPost_warn hd acc] at hloop
          obtain ⟨w2, hw⟩ := ih _ acc1 hloop r (w ++ [(pid, raw)])
          refine ⟨w2, ?_⟩
          simp only [recoverLoop]
          rw [processPost_warn hd ⟨acc1.jobs, r, w⟩]
          exact hw
      | due pid =>
          cases hjob : getJob acc.jobs ("post-" ++ pid.pyStr) with
          | some j =>
              rw [processPost_due_present hd acc (by rw [hjob]; rfl)] at hloop
              dsimp only at hloop
              have hk : (getJob acc1.jobs ("post-" ++ pid.pyStr)).isSome := by
                have hm := recoverLoop_jobs_mono now ps acc ("post-" ++ pid.pyStr)
                  (by rw [hjob]; rfl)
                rw [hloop] at hm
                exact hm
              obtain ⟨w2, hw⟩ := ih acc acc1 hloop r w
              refine ⟨w2, ?_⟩
              simp only [recoverLoop]
              rw [processPost_due_present hd ⟨acc1.jobs, r, w⟩ hk]
              exact hw
          | none =>
              rw [processPost_due_absent hd acc hjob] at hloop
              dsimp only at hloop
              have hk : (getJob acc1.jobs ("post-" ++ pid.pyStr)).isSome := by
                have hm := recoverLoop_jobs_mono now ps
                  ⟨addJobReplace acc.jobs ("post-" ++ pid.pyStr)
                      ⟨now + CATCHUP_DELAY_SECONDS, pid⟩,
                    acc.recovered + 1, acc.warnings⟩ ("post-" ++ pid.pyStr)
                  (by rw [getJob_addJobReplace_self]; rfl)
                rw [hloop] at hm
                exact hm
              obtain ⟨w2, hw⟩ := ih _ acc1 hloop r w
              refine ⟨w2, ?_⟩
              simp only [recoverLoop]
              rw [processPost_due_present hd ⟨acc1.jobs, r, w⟩ hk]
              exact hw

/-! ### Claim C1 -/

/-- C1: at most one live job exists per job key at any time.  Every operation
that inserts a job (create, reschedule, retry re-enqueue, catch-up recovery)
either rejects when a live job with the key exists or removes/replaces the
existing job before inserting, so no sequence of operations (schedule-API
calls, dispatcher firings, reconciliation passes) ever produces two live
jobs under one key: key-uniqueness of the job store is preserved. -/
theorem at_most_one_live_job_per_key (ops : List Op) (st : SchedState)
    (h : JobKeysNodup st.jobs) : JobKeysNodup (applyOps st ops).jobs := by
  induction ops generalizing st with
  | nil => exact h
  | cons op ops ih => exact ih (applyOp st op) (applyOp_jobs_nodup st op h)

/-- Witness for C1: a concrete operation sequence (create, firing with a
failing webhook, a reconciliation that recovers a past-due candidate, a
reschedule and a cancel) run from the empty state keeps job keys unique. -/
theorem at_most_one_live_job_per_key_witness :
    JobKeysNodup (applyOps ⟨[], []⟩
      [.create "a" 1000, .fire "a" ⟨1000, .ok, .error "down"⟩,
       .reconcile ⟨200000, .ok (.jlist
         [.jobj [("id", .jstr "b"), ("scheduledAt", .jstr "0001-01-01T00:00:10Z")]])⟩,
       .reschedule "b" 5000, .cancel "a"]).jobs :=
  at_most_one_live_job_per_key _ _ (by simp [JobKeysNodup])

/-! ### Claim C10 -/

/-- C10: whenever an entry exists in the retry-count map, its value is
between 1 and `MAX_RETRIES` inclusive; every operation (including the
increment-on-failure guarded by `count < MAX_RETRIES` and the two clears
inside a firing) preserves the bound, so a stored retry count never exceeds
3 and a 0 is never stored. -/
theorem retry_count_bounds (ops : List Op) (st : SchedState) (h : RetryInv st) :
    RetryInv (applyOps st ops) := by
  induction ops generalizing st with
  | nil => exact h
  | cons op ops ih => exact ih (applyOp st op) (applyOp_retryInv st op h)

/-- Witness for C10: two consecutive failing firings from the empty state
keep the tracker inside its bounds. -/
theorem retry_count_bounds_witness :
    RetryInv (applyOps ⟨[], []⟩
      [.fire "a" ⟨0, .ok, .error "down"⟩, .fire "a" ⟨200, .error "boom", .ok⟩]) :=
  retry_count_bounds _ _ (fun _ _ h => nomatch h)

/-! ### Claim C2 -/

/-- C2 counterexample: at a concrete firing whose "publishing" status PATCH
fails, the downstream webhook is NOT invoked, contradicting the claim that
the webhook call is still made when the status PATCH fails. -/
theorem patch_failure_webhook_not_called_cex :
    (trigger_linkedin_publish ⟨0, .error "connect timeout", .ok⟩ "p1"
      ⟨[], []⟩).webhookCalled = false := rfl

/-- C2 amended: a failure of the "publishing" status-update call aborts the
attempt — the downstream webhook call is NOT made — and the failure is
handled exactly like a webhook failure (same resulting state and same status
PATCHes as a firing whose webhook call failed with the same error). -/
theorem patch_failure_aborts_attempt (env : FireEnv) (post_id : String) (st : SchedState)
    (e : String) (h : env.patchPublishing = .error e) :
    (trigger_linkedin_publish env post_id st).webhookCalled = false ∧
    (trigger_linkedin_publish env post_id st).state =
      (trigger_linkedin_publish ⟨env.now, .ok, .error e⟩ post_id st).state ∧
    (trigger_linkedin_publish env post_id st).sorPatches =
      (trigger_linkedin_publish ⟨env.now, .ok, .error e⟩ post_id st).sorPatches := by
  obtain ⟨now, pp, wh⟩ := env
  simp only at h
  subst h
  refine ⟨?_, ?_, ?_⟩ <;>
    by_cases hlt : get_retry_count st post_id < MAX_RETRIES <;>
      simp [trigger_linkedin_publish, hlt]

/-- Witness for C2's amended theorem at a concrete firing. -/
theorem patch_failure_aborts_attempt_witness :
    (trigger_linkedin_publish ⟨5, .error "409 conflict", .ok⟩ "w2" ⟨[], []⟩).webhookCalled
        = false ∧
    (trigger_linkedin_publish ⟨5, .error "409 conflict", .ok⟩ "w2" ⟨[], []⟩).state =
      (trigger_linkedin_publish ⟨5, .ok, .error "409 conflict"⟩ "w2" ⟨[], []⟩).state ∧
    (trigger_linkedin_publish ⟨5, .error "409 conflict", .ok⟩ "w2" ⟨[], []⟩).sorPatches =
      (trigger_linkedin_publish ⟨5, .ok, .error "409 conflict"⟩ "w2" ⟨[], []⟩).sorPatches :=
  patch_failure_aborts_attempt ⟨5, .error "409 conflict", .ok⟩ "w2" ⟨[], []⟩
    "409 conflict" rfl

/-! ### Claim C3 -/

/-- C3: when a firing fails while the retry count equals `MAX_RETRIES`, the
retry-tracker entry is cleared (no entry remains), the item is PATCHed
"failed" with a message carrying the final underlying error and stating 4
attempts, and no job is (re-)enqueued for the key. -/
theorem retries_exhausted_terminal (env : FireEnv) (post_id : String) (st : SchedState)
    (e : String) (hc : get_retry_count st post_id = MAX_RETRIES)
    (hf : fireFailure env = some e) :
    lookupCount (trigger_linkedin_publish env post_id st).state.retryCounts post_id
        = none ∧
    (trigger_linkedin_publish env post_id st).sorPatches =
      [.publishing, .failed ("Failed after 4 attempts. Last error: " ++ e)] ∧
    (trigger_linkedin_publish env post_id st).state.jobs = st.jobs := by
  obtain ⟨now, pp, wh⟩ := env
  have hnlt : ¬ get_retry_count st post_id < MAX_RETRIES := by omega
  cases pp with
  | error e1 =>
      have he : e1 = e := by simpa [fireFailure] using hf
      subst he
      have ht : trigger_linkedin_publish ⟨now, .error e1, wh⟩ post_id st =
          ⟨clear_retry_count st post_id, false,
            [.publishing, .failed ("Failed after " ++ toString (MAX_RETRIES + 1) ++
              " attempts. Last error: " ++ e1)]⟩ := by
        simp [trigger_linkedin_publish, hnlt]
      rw [ht]
      exact ⟨lookupCount_filter_self _ _, rfl, rfl⟩
  | ok =>
      cases wh with
      | error e1 =>
          have he : e1 = e := by simpa [fireFailure] using hf
          subst he
          have ht : trigger_linkedin_publish ⟨now, .ok, .error e1⟩ post_id st =
              ⟨clear_retry_count st post_id, true,
                [.publishing, .failed ("Failed after " ++ toString (MAX_RETRIES + 1) ++
                  " attempts. Last error: " ++ e1)]⟩ := by
            simp [trigger_linkedin_publish, hnlt]
          rw [ht]
          exact ⟨lookupCount_filter_self _ _, rfl, rfl⟩
      | ok => simp [fireFailure] at hf

/-- Witness for C3: a concrete post with a stored count of 3 whose webhook
fails again. -/
theorem retries_exhausted_terminal_witness :
    lookupCount (trigger_linkedin_publish ⟨0, .ok, .error "n8n down"⟩ "p"
        ⟨[], [("p", 3)]⟩).state.retryCounts "p" = none ∧
    (trigger_linkedin_publish ⟨0, .ok, .error "n8n down"⟩ "p"
        ⟨[], [("p", 3)]⟩).sorPatches =
      [.publishing, .failed ("Failed after 4 attempts. Last error: " ++ "n8n down")] ∧
    (trigger_linkedin_publish ⟨0, .ok, .error "n8n down"⟩ "p"
        ⟨[], [("p", 3)]⟩).state.jobs = [] :=
  retries_exhausted_terminal ⟨0, .ok, .error "n8n down"⟩ "p" ⟨[], [("p", 3)]⟩
    "n8n down" rfl rfl

/-! ### Claim C4 -/

/-- C4: when a firing fails while the retry count is strictly below
`MAX_RETRIES`, the tracker count is incremented by exactly 1 and a job is
re-enqueued under the same key with `fire_at = now + RETRY_DELAY_SECONDS`,
replacing any job under that key and touching no other key. -/
theorem failure_schedules_retry (env : FireEnv) (post_id : String) (st : SchedState)
    (e : String) (hc : get_retry_count st post_id < MAX_RETRIES)
    (hf : fireFailure env = some e) :
    get_retry_count (trigger_linkedin_publish env post_id st).state post_id =
      get_retry_count st post_id + 1 ∧
    getJob (trigger_linkedin_publish env post_id st).state.jobs (jobKey post_id) =
      some ⟨env.now + RETRY_DELAY_SECONDS, .jstr post_id⟩ ∧
    (∀ k, k ≠ jobKey post_id →
      getJob (trigger_linkedin_publish env post_id st).state.jobs k =
        getJob st.jobs k) := by
  have hstate : (trigger_linkedin_publish env post_id st).state =
      schedule_retry (set_retry_count st post_id (get_retry_count st post_id + 1))
        post_id env.now := by
    obtain ⟨now, pp, wh⟩ := env
    cases pp with
    | error e1 => simp [trigger_linkedin_publish, hc]
    | ok =>
        cases wh with
        | error e1 => simp [trigger_linkedin_publish, hc]
        | ok => simp [fireFailure] at hf
  rw [hstate]
  refine ⟨?_, ?_, ?_⟩
  · show (lookupCount ((post_id, get_retry_count st post_id + 1) ::
      st.retryCounts.filter (fun kv => kv.1 != post_id)) post_id).getD 0 = _
    rw [lookupCount, if_pos (beq_iff_eq.mpr rfl)]
    rfl
  · show getJob (addJobReplace _ (jobKey post_id) _) (jobKey post_id) = _
    exact getJob_addJobReplace_self _ _ _
  · intro k hk
    show getJob (addJobReplace _ (jobKey post_id) _) k = _
    rw [getJob_addJobReplace_ne _ _ hk]
    show getJob
      (match getJob st.jobs (jobKey post_id) with
       | some _ => removeJob st.jobs (jobKey post_id)
       | none => st.jobs) k = getJob st.jobs k
    split
    · exact getJob_removeJob_ne _ hk
    · rfl

/-- Witness for C4: a post with no prior retries whose webhook fails is
re-enqueued at `now + 120` with count 1. -/
theorem failure_schedules_retry_witness :
    get_retry_count (trigger_linkedin_publish ⟨1000, .ok, .error "down"⟩ "p"
        ⟨[], []⟩).state "p" = 0 + 1 ∧
    getJob (trigger_linkedin_publish ⟨1000, .ok, .error "down"⟩ "p"
        ⟨[], []⟩).state.jobs (jobKey "p") =
      some ⟨(1000 : Int) + RETRY_DELAY_SECONDS, .jstr "p"⟩ ∧
    (∀ k, k ≠ jobKey "p" →
      getJob (trigger_linkedin_publish ⟨1000, .ok, .error "down"⟩ "p"
          ⟨[], []⟩).state.jobs k = getJob ([] : JobStore) k) :=
  failure_schedules_retry ⟨1000, .ok, .error "down"⟩ "p" ⟨[], []⟩ "down"
    (by decide) rfl

/-! ### Claim C5 -/

/-- C5: when the system-of-record fetch fails with an `httpx.HTTPError`,
`recover_missed_posts` returns 0, changes nothing and raises nothing:
reconciliation failure never propagates to the caller. -/
theorem reconcile_fetch_failure_fail_open (now : Int) (msg : String) (st : SchedState) :
    recover_missed_posts ⟨now, .httpError msg⟩ st = ⟨.ok 0, st, []⟩ := rfl

/-! ### Claim C7 -/

/-- C7: reconciliation is idempotent.  A past-due candidate whose derived key
already has a live job is skipped without enqueuing or counting, and running
`recover_missed_posts` twice against the same unchanged system-of-record
response recovers nothing the second time and leaves the job store exactly
as after the first run. -/
theorem reconcile_idempotent :
    (∀ (now : Int) (acc : RecoverAcc) (p : Json) (pid : Json),
        candDecision now p = .due pid →
        (getJob acc.jobs ("post-" ++ pid.pyStr)).isSome →
        processPost now acc p = .ok acc) ∧
    (∀ (env : ReconcileEnv) (st : SchedState) (n : Nat),
        (recover_missed_posts env st).result = .ok n →
        (recover_missed_posts env (recover_missed_posts env st).state).result = .ok 0 ∧
        (recover_missed_posts env (recover_missed_posts env st).state).state.jobs =
          (recover_missed_posts env st).state.jobs) := by
  constructor
  · intro now acc p pid hd hjob
    exact processPost_due_present hd acc hjob
  · intro env st n hok
    obtain ⟨now, fetch⟩ := env
    cases fetch with
    | httpError msg => exact ⟨rfl, rfl⟩
    | ok body =>
        cases hIter : pyIterate (normalizePosts body) with
        | error e =>
            have h1 : (recover_missed_posts ⟨now, .ok body⟩ st).result = .error e := by
              simp only [recover_missed_posts]
              rw [hIter]
            rw [h1] at hok
            cases hok
        | ok posts =>
            cases hLoop : recoverLoop now posts ⟨st.jobs, 0, []⟩ with
            | mk acc oe =>
                cases oe with
                | some e =>
                    have h1 : (recover_missed_posts ⟨now, .ok body⟩ st).result =
                        .error e := by
                      simp only [recover_missed_posts]
                      rw [hIter]
                      dsimp only
                      rw [hLoop]
                    rw [h1] at hok
                    cases hok
                | none =>
                    have h1 : recover_missed_posts ⟨now, .ok body⟩ st =
                        ⟨.ok acc.recovered, { st with jobs := acc.jobs },
                          acc.warnings⟩ := by
                      simp only [recover_missed_posts]
                      rw [hIter]
                      dsimp only
                      rw [hLoop]
                    obtain ⟨w2, hw⟩ :=
                      recoverLoop_replay now posts ⟨st.jobs, 0, []⟩ acc hLoop 0 []
                    have h2 : recover_missed_posts ⟨now, .ok body⟩
                        ({ st with jobs := acc.jobs } : SchedState) =
                        ⟨.ok 0, { st with jobs := acc.jobs }, w2⟩ := by
                      simp only [recover_missed_posts]
                      rw [hIter]
                      dsimp only
                      rw [hw]
                    rw [h1, h2]
                    exact ⟨rfl, rfl⟩

/-- Witness for C7: a single past-due candidate is recovered by the first
pass and skipped by the second. -/
theorem reconcile_idempotent_witness :
    (recover_missed_posts ⟨200000, .ok (.jlist
        [.jobj [("id", .jstr "b"), ("scheduledAt", .jstr "0001-01-01T00:00:10Z")]])⟩
      (recover_missed_posts ⟨200000, .ok (.jlist
        [.jobj [("id", .jstr "b"), ("scheduledAt", .jstr "0001-01-01T00:00:10Z")]])⟩
        ⟨[], []⟩).state).result = .ok 0 :=
  (reconcile_idempotent.2 ⟨200000, .ok (.jlist
      [.jobj [("id", .jstr "b"), ("scheduledAt", .jstr "0001-01-01T00:00:10Z")]])⟩
    ⟨[], []⟩ 1 rfl).1

/-! ### Candidate-level analysis for C6 and C9 -/

/-- A well-formed reconciliation candidate: an object carrying an `id` and a
`scheduledAt` string, as listed by `GET /posts?status=scheduled`. -/
def candidateObj (pid s : String) : Json :=
  .jobj [("id", .jstr pid), ("scheduledAt", .jstr s)]

theorem parseScheduledAt_empty : parseScheduledAt "" = none := rfl

theorem candDecision_candidateObj (now : Int) (pid s : String)
    (hpid : pid ≠ "") (hs : s ≠ "") :
    candDecision now (candidateObj pid s) =
      (match parseScheduledAt s with
       | none => .warn (.jstr pid) (.jstr s)
       | some dt =>
           if now ≤ (ensureAware dt).absSeconds then .skip else .due (.jstr pid)) := by
  unfold candDecision candidateObj
  simp [lookupKey, optTruthy, Json.truthy, hpid, hs]

/-! ### Claim C6 -/

/-- C6: a candidate with status "scheduled" whose declared time is in the
past and whose derived key has no live job is enqueued at
`now + CATCHUP_DELAY_SECONDS` and counted; a candidate whose declared time
is not in the past is neither enqueued nor counted. -/
theorem catchup_recovers_past_due (now : Int) (st : SchedState) (pid s : String)
    (dt : PyDatetime) (hpid : pid ≠ "") (hparse : parseScheduledAt s = some dt) :
    ((ensureAware dt).absSeconds < now →
      getJob st.jobs ("post-" ++ pid) = none →
      (recover_missed_posts ⟨now, .ok (.jlist [candidateObj pid s])⟩ st).result
          = .ok 1 ∧
      getJob (recover_missed_posts ⟨now, .ok (.jlist [candidateObj pid s])⟩
          st).state.jobs ("post-" ++ pid) =
        some ⟨now + CATCHUP_DELAY_SECONDS, .jstr pid⟩) ∧
    (now ≤ (ensureAware dt).absSeconds →
      recover_missed_posts ⟨now, .ok (.jlist [candidateObj pid s])⟩ st =
        ⟨.ok 0, st, []⟩) := by
  have hs : s ≠ "" := by
    intro h
    rw [h, parseScheduledAt_empty] at hparse
    cases hparse
  have hd0 := candDecision_candidateObj now pid s hpid hs
  rw [hparse] at hd0
  dsimp only at hd0
  constructor
  · intro hpast hnojob
    have hd : candDecision now (candidateObj pid s) = .due (.jstr pid) := by
      rw [hd0, if_neg (not_le.mpr hpast)]
    have hpp := processPost_due_absent hd ⟨st.jobs, 0, []⟩ hnojob
    have h1 : recover_missed_posts ⟨now, .ok (.jlist [candidateObj pid s])⟩ st =
        ⟨.ok 1, { st with jobs := addJobReplace st.jobs ("post-" ++ pid) (JobInfo.mk (now + CATCHUP_DELAY_SECONDS) (Json.jstr pid)) }, []⟩ := by
      simp only [recover_missed_posts, normalizePosts, pyIterate, recoverLoop]
      rw [hpp]
      rfl
    rw [h1]
    exact ⟨rfl, getJob_addJobReplace_self _ _ _⟩
  · intro hfut
    have hd : candDecision now (candidateObj pid s) = .skip := by
      rw [hd0, if_pos hfut]
    have hpp := processPost_skip hd (⟨st.jobs, 0, []⟩ : RecoverAcc)
    simp only [recover_missed_posts, normalizePosts, pyIterate, recoverLoop]
    rw [hpp]

/-- Witness for C6 at a concrete past-due candidate whose timestamp is a full
`isoformat()` string with microseconds, as the system of record emits. -/
theorem catchup_recovers_past_due_witness :
    (recover_missed_posts ⟨200000, .ok (.jlist
        [candidateObj "a" "0001-01-01T00:00:10.123456+00:00"])⟩ ⟨[], []⟩).result
        = .ok 1 ∧
    getJob (recover_missed_posts ⟨200000, .ok (.jlist
        [candidateObj "a" "0001-01-01T00:00:10.123456+00:00"])⟩ ⟨[], []⟩).state.jobs
      ("post-" ++ "a") = some ⟨(200000 : Int) + CATCHUP_DELAY_SECONDS, .jstr "a"⟩ :=
  (catchup_recovers_past_due 200000 ⟨[], []⟩ "a" "0001-01-01T00:00:10.123456+00:00"
    ⟨86410, 123456, some 0⟩ (by decide) rfl).1 (by decide) rfl

/-! ### Claim C8 -/

/-- C8 counterexample: an object wrapping a non-list (here a number) under
the known `posts` field is "another shape", yet the reconciler raises a
`TypeError` instead of treating it as an empty candidate list and returning
0 without error. -/
theorem response_shape_cex :
    (recover_missed_posts ⟨0, .ok (.jobj [("posts", .jnum 42)])⟩
        ⟨[], []⟩).result = .error .typeError ∧
    (recover_missed_posts ⟨0, .ok (.jobj [("posts", .jnum 42)])⟩
        ⟨[], []⟩).result ≠ .ok 0 := by
  refine ⟨rfl, ?_⟩
  intro h
  rw [show (recover_missed_posts ⟨0, .ok (.jobj [("posts", .jnum 42)])⟩
      ⟨[], []⟩).result = .error .typeError from rfl] at h
  cases h

/-- C8 amended: the reconciler accepts a bare list, or an object wrapping a
list under `posts` (processed identically to the bare list); a non-list
non-object body, or an object without `posts`, yields an empty candidate
list (0 recovered, no error, nothing changed); but an object whose `posts`
field holds a non-iterable value raises a `TypeError` instead of returning
0 (leaving the state unchanged). -/
theorem response_shape_tolerance (now : Int) (st : SchedState) :
    (recover_missed_posts ⟨now, .ok .null⟩ st = ⟨.ok 0, st, []⟩) ∧
    (∀ b, recover_missed_posts ⟨now, .ok (.jbool b)⟩ st = ⟨.ok 0, st, []⟩) ∧
    (∀ n, recover_missed_posts ⟨now, .ok (.jnum n)⟩ st = ⟨.ok 0, st, []⟩) ∧
    (∀ s, recover_missed_posts ⟨now, .ok (.jstr s)⟩ st = ⟨.ok 0, st, []⟩) ∧
    (∀ kvs, lookupKey kvs "posts" = none →
      recover_missed_posts ⟨now, .ok (.jobj kvs)⟩ st = ⟨.ok 0, st, []⟩) ∧
    (∀ kvs xs, lookupKey kvs "posts" = some (.jlist xs) →
      recover_missed_posts ⟨now, .ok (.jobj kvs)⟩ st =
        recover_missed_posts ⟨now, .ok (.jlist xs)⟩ st) ∧
    (∀ kvs v, lookupKey kvs "posts" = some v → pyIterate v = .error .typeError →
      recover_missed_posts ⟨now, .ok (.jobj kvs)⟩ st =
        ⟨.error .typeError, st, []⟩) := by
  refine ⟨rfl, fun b => ?_, fun n => rfl, fun s => rfl, fun kvs h => ?_,
    fun kvs xs h => ?_, fun kvs v h hv => ?_⟩
  · cases b <;> rfl
  · simp only [recover_missed_posts, normalizePosts]
    rw [h]
    rfl
  · simp only [recover_missed_posts, normalizePosts]
    rw [h]
    rfl
  · simp only [recover_missed_posts, normalizePosts]
    rw [h]
    show (match pyIterate v with
          | Except.error e => ({ result := Except.error e, state := st, warnings := [] } :
              ReconcileOutput)
          | Except.ok posts =>
            match recoverLoop now posts ⟨st.jobs, 0, []⟩ with
            | (acc, none) => ⟨.ok acc.recovered, { st with jobs := acc.jobs }, acc.warnings⟩
            | (acc, some e) => ⟨.error e, { st with jobs := acc.jobs }, acc.warnings⟩) =
        ⟨.error PyErr.typeError, st, []⟩
    rw [hv]

/-- Witness for C8's amended theorem: an object lacking `posts` yields 0, and
an object wrapping a number under `posts` raises `TypeError`. -/
theorem response_shape_tolerance_witness :
    recover_missed_posts ⟨0, .ok (.jobj [("x", .jnum 7)])⟩ ⟨[], []⟩ =
      ⟨.ok 0, ⟨[], []⟩, []⟩ ∧
    recover_missed_posts ⟨0, .ok (.jobj [("posts", .jnum 42)])⟩ ⟨[], []⟩ =
      ⟨.error .typeError, ⟨[], []⟩, []⟩ :=
  ⟨(response_shape_tolerance 0 ⟨[], []⟩).2.2.2.2.1 [("x", .jnum 7)] rfl,
   (response_shape_tolerance 0 ⟨[], []⟩).2.2.2.2.2.2 [("posts", .jnum 42)]
     (.jnum 42) rfl rfl⟩

/-! ### Claim C9 -/

/-- C9 counterexample: a candidate that has an id but is missing its
timestamp is skipped silently — the reconciler logs no warning — against
the claim that a warning is logged for the missing-timestamp case. -/
theorem missing_timestamp_no_warning_cex :
    recover_missed_posts ⟨0, .ok (.jlist [.jobj [("id", .jstr "a")]])⟩ ⟨[], []⟩ =
      ⟨.ok 0, ⟨[], []⟩, []⟩ := rfl

theorem pyReplaceZ_append (l1 l2 : List Char) :
    pyReplaceZ (l1 ++ l2) = pyReplaceZ l1 ++ pyReplaceZ l2 := by
  induction l1 with
  | nil => rfl
  | cons c cs ih => by_cases hc : c = 'Z' <;> simp [pyReplaceZ, hc, ih]

/-- C9 amended: timestamps are tolerated with or without an explicit
UTC-offset suffix — a trailing `Z` is parsed exactly like `+00:00`, and a
timestamp without timezone information is compared as if it were UTC.  A
candidate missing its id is skipped silently; a candidate whose timestamp is
a string that fails to parse is skipped with a warning; but a candidate
missing its timestamp, or carrying a non-string timestamp, is skipped
silently with NO warning. -/
theorem timestamp_tolerance_and_skips :
    (∀ s : String, parseScheduledAt (s ++ "Z") = parseScheduledAt (s ++ "+00:00")) ∧
    (∀ (now : Int) (pid s : String) (dt : PyDatetime), pid ≠ "" →
      parseScheduledAt s = some dt → dt.tzOffset = none →
      candDecision now (candidateObj pid s) =
        (if now ≤ dt.wall then .skip else .due (.jstr pid))) ∧
    (∀ (now : Int) (st : SchedState) (s : String),
      recover_missed_posts ⟨now, .ok (.jlist [.jobj [("scheduledAt", .jstr s)]])⟩ st =
        ⟨.ok 0, st, []⟩) ∧
    (∀ (now : Int) (st : SchedState) (pid s : String), pid ≠ "" → s ≠ "" →
      parseScheduledAt s = none →
      recover_missed_posts ⟨now, .ok (.jlist [candidateObj pid s])⟩ st =
        ⟨.ok 0, st, [(.jstr pid, .jstr s)]⟩) ∧
    (∀ (now : Int) (st : SchedState) (pid : String), pid ≠ "" →
      recover_missed_posts ⟨now, .ok (.jlist [.jobj [("id", .jstr pid)]])⟩ st =
        ⟨.ok 0, st, []⟩) ∧
    (∀ (now : Int) (st : SchedState) (pid : String) (k : Int), pid ≠ "" →
      recover_missed_posts ⟨now, .ok (.jlist
          [.jobj [("id", .jstr pid), ("scheduledAt", .jnum k)]])⟩ st =
        ⟨.ok 0, st, []⟩) := by
  refine ⟨fun s => ?_, fun now pid s dt hpid hparse htz => ?_,
    fun now st s => rfl, fun now st pid s hpid hs hparse => ?_,
    fun now st pid hpid => ?_, fun now st pid k hpid => ?_⟩
  · unfold parseScheduledAt
    rw [String.data_append, String.data_append, pyReplaceZ_append, pyReplaceZ_append]
    rfl
  · have hs : s ≠ "" := by
      intro h
      rw [h, parseScheduledAt_empty] at hparse
      cases hparse
    rw [candDecision_candidateObj now pid s hpid hs, hparse]
    simp [ensureAware, htz, PyDatetime.absSeconds]
  · have hd : candDecision now (candidateObj pid s) = .warn (.jstr pid) (.jstr s) := by
      rw [candDecision_candidateObj now pid s hpid hs, hparse]
    have hpp := processPost_warn hd (⟨st.jobs, 0, []⟩ : RecoverAcc)
    simp only [recover_missed_posts, normalizePosts, pyIterate, recoverLoop]
    rw [hpp]
    rfl
  · have hd : candDecision now (.jobj [("id", .jstr pid)]) = .skip := by
      unfold candDecision
      simp [lookupKey, optTruthy, Json.truthy, hpid]
    have hpp := processPost_skip hd (⟨st.jobs, 0, []⟩ : RecoverAcc)
    simp only [recover_missed_posts, normalizePosts, pyIterate, recoverLoop]
    rw [hpp]
  · have hd : candDecision now (.jobj [("id", .jstr pid), ("scheduledAt", .jnum k)])
        = .skip := by
      unfold candDecision
      by_cases hk : k = 0 <;> simp [lookupKey, optTruthy, Json.truthy, hpid, hk]
    have hpp := processPost_skip hd (⟨st.jobs, 0, []⟩ : RecoverAcc)
    simp only [recover_missed_posts, normalizePosts, pyIterate, recoverLoop]
    rw [hpp]

/-- Witness for C9's amended theorem: the `Z` form of a concrete
microsecond-precision timestamp parses like its `+00:00` form, a concrete
naive candidate with a millisecond fraction is compared as UTC, and a
concrete unparsable timestamp yields exactly one warning. -/
theorem timestamp_tolerance_and_skips_witness :
    parseScheduledAt ("0001-01-01T00:00:10.123456" ++ "Z") =
      parseScheduledAt ("0001-01-01T00:00:10.123456" ++ "+00:00") ∧
    candDecision 200000 (candidateObj "a" "0001-01-01T00:00:05.500") =
      (if (200000 : Int) ≤ 86405 then .skip else .due (.jstr "a")) ∧
    recover_missed_posts ⟨0, .ok (.jlist [candidateObj "a" "oops"])⟩ ⟨[], []⟩ =
      ⟨.ok 0, ⟨[], []⟩, [(.jstr "a", .jstr "oops")]⟩ :=
  ⟨timestamp_tolerance_and_skips.1 "0001-01-01T00:00:10.123456",
   timestamp_tolerance_and_skips.2.1 200000 "a" "0001-01-01T00:00:05.500"
     ⟨86405, 500000, none⟩ (by decide) rfl rfl,
   timestamp_tolerance_and_skips.2.2.2.1 0 ⟨[], []⟩ "a" "oops"
     (by decide) (by decide) rfl⟩

end LinkieClaw
